import Mathlib

set_option maxHeartbeats 1000000

/-!
# Verification of the Krita small-color-selector widget and KoBorder ODF mapping

Shallow embedding (over exact rationals) of
`plugins/dockers/smallcolorselector/kis_small_color_widget.cc` and of the
`KoBorder` ODF serialization interface declared in `libs/odf/KoBorder.h`.
-/

/-- Modelled from the spec: the sentinel hue used by the HSV/RGB conversion
routines of `KoColorConversions` (not part of the provided sources) for grey
colors, whose hue is undefined. -/
def UNDEFINED_HUE : ℚ := -1

/-- An RGB triple, exact-rational idealization of the three float channels. -/
structure RGB where
  r : ℚ
  g : ℚ
  b : ℚ
  deriving DecidableEq, Repr

/-- An HSV triple (hue denormalised to degrees, as the conversion routines use). -/
structure HSV where
  h : ℚ
  s : ℚ
  v : ℚ
  deriving DecidableEq, Repr

/-- Modelled from the spec: `RGBToHSV` of `KoColorConversions` (only its callers
are in the provided sources).  The spec's glossary describes HSV and RGB as
"interconverted for the palette widgets"; this is the standard max/min
hexcone conversion, over exact rationals. -/
def RGBToHSV (r g b : ℚ) : HSV :=
  let mx := max r (max g b)
  let mn := min r (min g b)
  let s : ℚ := if mx = 0 then 0 else (mx - mn) / mx
  let h : ℚ :=
    if s = 0 then UNDEFINED_HUE
    else
      let d := mx - mn
      let h0 : ℚ :=
        if r = mx then (g - b) / d
        else if g = mx then 2 + (b - r) / d
        else 4 + (r - g) / d
      let h1 := h0 * 60
      if h1 < 0 then h1 + 360 else h1
  ⟨h, s, mx⟩

/-- Modelled from the spec: `HSVToRGB` of `KoColorConversions` (only its callers
are in the provided sources).  Standard hexcone reconstruction: the hue circle
is split into six sextants selected by `⌊h/60⌋`. -/
def HSVToRGB (h s v : ℚ) : RGB :=
  if s = 0 ∨ h = UNDEFINED_HUE then ⟨v, v, v⟩
  else
    let h' := if h = 360 then 0 else h
    let hk := h' / 60
    let i : ℤ := ⌊hk⌋
    let f : ℚ := hk - i
    let p := v * (1 - s)
    let q := v * (1 - s * f)
    let t := v * (1 - s * (1 - f))
    if i = 0 then ⟨v, t, p⟩
    else if i = 1 then ⟨q, v, p⟩
    else if i = 2 then ⟨p, v, t⟩
    else if i = 3 then ⟨p, q, v⟩
    else if i = 4 then ⟨t, p, v⟩
    else if i = 5 then ⟨v, p, q⟩
    else ⟨v, v, v⟩

/-- Qt's qBound for qreal: the value clamped to [lo, hi]. -/
def qBound (lo x hi : ℚ) : ℚ := max lo (min hi x)

/-- Qt's qRound: add one half and truncate towards zero. -/
def qRound (x : ℚ) : ℤ := if 0 ≤ x then ⌊x + 1/2⌋ else ⌈x - 1/2⌉

/-- Qt's qFuzzyCompare for qreal: |p1 - p2| * 10^12 ≤ min |p1| |p2|. -/
def qFuzzyCompare (p1 p2 : ℚ) : Bool :=
  decide (|p1 - p2| * 1000000000000 ≤ min |p1| |p2|)

/-- The color model identifiers of KoColorModelStandardIds that the widget
distinguishes: RGBA versus everything else. -/
inductive ColorModelId
  | RGBA
  | nonRGBA (tag : String)
  deriving DecidableEq

/-- The color depth identifiers of KoColorModelStandardIds used by the widget. -/
inductive ColorDepthId
  | Integer8Bits
  | Integer16Bits
  | Float16Bits
  | Float32Bits
  | Float64Bits
  deriving DecidableEq

/-- A KoColorSpace reduced to the two identifiers the widget queries. -/
structure KoColorSpace where
  colorModelId : ColorModelId
  colorDepthId : ColorDepthId
  deriving DecidableEq

/-- KoColorSpaceRegistry::rgb8: RGBA model with 8-bit integer depth. -/
def rgb8 : KoColorSpace := ⟨ColorModelId.RGBA, ColorDepthId.Integer8Bits⟩

/-- A normalised channel vector, QVector<float>(4). -/
structure Channels where
  c0 : ℚ
  c1 : ℚ
  c2 : ℚ
  c3 : ℚ
  deriving DecidableEq

/-- setColor lines 166-168 and tellColorChanged lines 459-461: a painting
color space whose model is not RGBA is replaced by rgb8. -/
def effectiveColorSpace (cs : KoColorSpace) : KoColorSpace :=
  if cs.colorModelId ≠ ColorModelId.RGBA then rgb8 else cs

/-- setColor lines 178-186: channel extraction, swapped to BGR order for
8-bit integer depth. -/
def readRGBFromChannels (cs : KoColorSpace) (ch : Channels) : RGB :=
  if cs.colorDepthId = ColorDepthId.Integer8Bits then ⟨ch.c2, ch.c1, ch.c0⟩
  else ⟨ch.c0, ch.c1, ch.c2⟩

/-- tellColorChanged lines 465-475: channel packing, swapped to BGR order for
8-bit integer depth, alpha set to 1. -/
def writeRGBToChannels (cs : KoColorSpace) (r g b : ℚ) : Channels :=
  if cs.colorDepthId = ColorDepthId.Integer8Bits then ⟨b, g, r, 1⟩
  else ⟨r, g, b, 1⟩

/-- The fields of KisSmallColorWidget::Private that the widget logic reads and
writes (lines 43-64). -/
structure WidgetState where
  hue : ℚ
  value : ℚ
  saturation : ℚ
  updateAllowed : Bool
  currentRelativeDynamicRange : ℚ
  hasHDR : Bool
  hasHardwareHDR : Bool
  dynamicRangeEnabled : Bool
  deriving DecidableEq

/-- Private::effectiveRelativeDynamicRange (lines 61-63). -/
def effectiveRelativeDynamicRange (s : WidgetState) : ℚ :=
  if s.hasHDR then s.currentRelativeDynamicRange else 1

/-- The state established by the constructor (lines 66-120): zero HSV, updates
allowed, relative range 1, no HDR; the dynamic-range slider exists (default
enabled) exactly when hardware HDR was probed. -/
def initState (hasHardwareHDR : Bool) : WidgetState :=
  { hue := 0, value := 0, saturation := 0, updateAllowed := true,
    currentRelativeDynamicRange := 1, hasHDR := false,
    hasHardwareHDR := hasHardwareHDR, dynamicRangeEnabled := hasHardwareHDR }

/-- Net state effect of tellColorChanged (lines 443-482): updateAllowed is
cleared for the emission and set back to true at the end. -/
def tellColorChangedState (s : WidgetState) : WidgetState :=
  { s with updateAllowed := true }

/-- The widget state during the colorChanged emission inside tellColorChanged:
updateAllowed has been cleared and not yet restored. -/
def midEmissionState (s : WidgetState) : WidgetState :=
  { s with updateAllowed := false }

/-- The channel vector emitted by tellColorChanged (lines 447-475). -/
def tellColorChangedEmission (s : WidgetState) (cs : KoColorSpace) : Channels :=
  let rgb := HSVToRGB (s.hue * 360) s.saturation s.value
  let rc := effectiveRelativeDynamicRange s
  let rgb' : RGB := if s.hasHDR then ⟨rgb.r * rc, rgb.g * rc, rgb.b * rc⟩ else rgb
  writeRGBToChannels (effectiveColorSpace cs) rgb'.r rgb'.g rgb'.b

/-- KisSmallColorWidget::setHue (lines 127-134). -/
def setHue (s : WidgetState) (h : ℚ) : WidgetState :=
  tellColorChangedState { s with hue := qBound 0 h 1 }

/-- KisSmallColorWidget::setHSV (lines 136-153). -/
def setHSV (s : WidgetState) (h sat v : ℚ) (notifyChanged : Bool) : WidgetState :=
  let s' := { s with hue := qBound 0 h 1, value := qBound 0 v 1,
                     saturation := qBound 0 sat 1 }
  if notifyChanged then tellColorChangedState s' else s'

/-- KisSmallColorWidget::slotUpdateDynamicRange (lines 376-403). -/
def slotUpdateDynamicRange (s : WidgetState) (maxLuminance : ℤ) : WidgetState :=
  let oldRange := s.currentRelativeDynamicRange
  let newRange : ℚ := (maxLuminance : ℚ) / 80
  if qFuzzyCompare oldRange newRange then s
  else
    let rgb := HSVToRGB (s.hue * 360) s.saturation s.value
    let transformCoeff := newRange / oldRange
    let r := qBound 0 (rgb.r * transformCoeff) 1
    let g := qBound 0 (rgb.g * transformCoeff) 1
    let b := qBound 0 (rgb.b * transformCoeff) 1
    let hsv := RGBToHSV r g b
    setHSV { s with currentRelativeDynamicRange := newRange } (hsv.h / 360) hsv.s hsv.v false

/-- KisSmallColorWidget::slotDisplayConfigurationChanged (lines 420-441);
the painting color space of the display converter, or none when no converter
is installed, is an input. -/
def slotDisplayConfigurationChanged (s : WidgetState) (paintingCS : Option KoColorSpace) :
    WidgetState :=
  let hasHDR := s.hasHardwareHDR &&
    (match paintingCS with
     | some cs => decide (cs.colorModelId = ColorModelId.RGBA) &&
         (decide (cs.colorDepthId = ColorDepthId.Float16Bits) ||
          decide (cs.colorDepthId = ColorDepthId.Float32Bits) ||
          decide (cs.colorDepthId = ColorDepthId.Float64Bits))
     | none => false)
  { s with hasHDR := hasHDR,
           dynamicRangeEnabled := if s.hasHardwareHDR then hasHDR else s.dynamicRangeEnabled }

/-- Result of the channel-processing part of setColor: the (possibly updated)
state together with the processed r, g, b values. -/
structure ProcessResult where
  state : WidgetState
  r : ℚ
  g : ℚ
  b : ℚ
  deriving DecidableEq

/-- setColor lines 188-206: under HDR the channels are divided by the range
coefficient, which is first raised to 1.10 times the maximum channel whenever
some channel exceeds it (updating the dynamic range); without HDR the channels
are clamped to [0, 1]. -/
def processColorChannels (s : WidgetState) (r g b : ℚ) : ProcessResult :=
  if s.hasHDR then
    let rangeCoeff := effectiveRelativeDynamicRange s
    if rangeCoeff < r ∨ rangeCoeff < g ∨ rangeCoeff < b then
      let rangeCoeff' := max r (max g b) * (11/10)
      let newMaxLuminance := qRound (80 * rangeCoeff')
      ⟨slotUpdateDynamicRange s newMaxLuminance,
       r / rangeCoeff', g / rangeCoeff', b / rangeCoeff'⟩
    else ⟨s, r / rangeCoeff, g / rangeCoeff, b / rangeCoeff⟩
  else ⟨s, qBound 0 r 1, qBound 0 g 1, qBound 0 b 1⟩

/-- setColor lines 163-215, after the update guard and assert recovery. -/
def setColorBody (s : WidgetState) (cs : KoColorSpace) (ch : Channels) : WidgetState :=
  if s.hasHDR && !s.hasHardwareHDR then s
  else
    let rgb := readRGBFromChannels (effectiveColorSpace cs) ch
    let pr := processColorChannels s rgb.r rgb.g rgb.b
    let hsv := RGBToHSV pr.r pr.g pr.b
    setHSV pr.state (hsv.h / 360) hsv.s hsv.v false

/-- KisSmallColorWidget::setColor (lines 155-215); ch is the normalised
channel vector of the input color converted to the effective color space. -/
def setColor (s : WidgetState) (cs : KoColorSpace) (ch : Channels) : WidgetState :=
  if !s.updateAllowed then s
  else
    setColorBody
      (if s.hasHardwareHDR && !(s.hasHDR == s.dynamicRangeEnabled)
       then slotDisplayConfigurationChanged s (some cs) else s) cs ch

/-- A QPointF. -/
structure PointF where
  x : ℚ
  y : ℚ
  deriving DecidableEq

/-- KisSmallColorWidget::slotHueSliderChanged (lines 355-362). -/
def slotHueSliderChanged (s : WidgetState) (pos : PointF) : WidgetState :=
  if !(qFuzzyCompare pos.x s.hue) then setHue s pos.x else s

/-- KisSmallColorWidget::slotValueSliderChanged (lines 364-374). -/
def slotValueSliderChanged (s : WidgetState) (pos : PointF) : WidgetState :=
  let newSaturation := pos.x
  let newValue := 1 - pos.y
  if !(qFuzzyCompare newSaturation s.saturation) || !(qFuzzyCompare newValue s.value)
  then setHSV s s.hue newSaturation newValue true else s

/-- One externally triggered operation on the widget state. -/
inductive WidgetStep : WidgetState → WidgetState → Prop
  | stepSetColor (s : WidgetState) (cs : KoColorSpace) (ch : Channels) :
      WidgetStep s (setColor s cs ch)
  | stepHueSlider (s : WidgetState) (pos : PointF) :
      WidgetStep s (slotHueSliderChanged s pos)
  | stepValueSlider (s : WidgetState) (pos : PointF) :
      WidgetStep s (slotValueSliderChanged s pos)
  | stepDynamicRange (s : WidgetState) (maxLuminance : ℤ) :
      WidgetStep s (slotUpdateDynamicRange s maxLuminance)
  | stepDisplayConfig (s : WidgetState) (paintingCS : Option KoColorSpace) :
      WidgetStep s (slotDisplayConfigurationChanged s paintingCS)
  | stepTellColor (s : WidgetState) :
      WidgetStep s (tellColorChangedState s)
  | stepMidEmission (s : WidgetState) :
      WidgetStep s (midEmissionState s)

/-- A state the widget can reach from its constructor state. -/
def ReachableState (s : WidgetState) : Prop :=
  ∃ hw : Bool, Relation.ReflTransGen WidgetStep (initState hw) s

/-- An HDR-active widget state used as a concrete test input. -/
def hdrTestState : WidgetState :=
  { hue := 0, value := 0, saturation := 0, updateAllowed := true,
    currentRelativeDynamicRange := 1, hasHDR := true, hasHardwareHDR := true,
    dynamicRangeEnabled := true }

/-- The stored hue, saturation and value all lie in the unit interval. -/
def HSVBounded (s : WidgetState) : Prop :=
  0 ≤ s.hue ∧ s.hue ≤ 1 ∧ 0 ≤ s.saturation ∧ s.saturation ≤ 1 ∧ 0 ≤ s.value ∧ s.value ≤ 1

/-- hasHDR is only set when hardware HDR is available. -/
def HDRImplies (s : WidgetState) : Prop :=
  s.hasHDR = true → s.hasHardwareHDR = true

/-- A half-float RGBA pixel of KisGLImageF16 (exact-rational idealization). -/
structure PixelF where
  r : ℚ
  g : ℚ
  b : ℚ
  a : ℚ
  deriving DecidableEq

/-- FillHPolicy::getRGB (lines 224-230). -/
def fillHPolicy (hue xPortionCoeff yPortionCoeff : ℚ) (x y : ℕ) : RGB :=
  HSVToRGB (xPortionCoeff * x * 360) 1 1

/-- FillSVPolicy::getRGB (lines 232-238). -/
def fillSVPolicy (hue xPortionCoeff yPortionCoeff : ℚ) (x y : ℕ) : RGB :=
  HSVToRGB (hue * 360) (xPortionCoeff * x) (1 - yPortionCoeff * y)

/-- The skip-display-conversion branch of uploadPaletteData (lines 273-292):
a row-major double loop writing the policy color scaled by the effective
dynamic-range coefficient, with alpha 1, into a flat pixel buffer. -/
def uploadPaletteDataSkip (getRGB : ℚ → ℚ → ℚ → ℕ → ℕ → RGB) (hue rangeCoeff : ℚ)
    (width height : ℕ) : List PixelF :=
  (List.range height).flatMap fun y =>
    (List.range width).map fun x =>
      let rgb := getRGB hue (1 / (width : ℚ)) (1 / (height : ℚ)) x y
      ⟨rgb.r * rangeCoeff, rgb.g * rangeCoeff, rgb.b * rangeCoeff, 1⟩

/-- KoBorder::BorderStyle (KoBorder.h lines 57-77). -/
inductive BorderStyle
  | BorderNone
  | BorderDotted
  | BorderDashed
  | BorderSolid
  | BorderDouble
  | BorderGroove
  | BorderRidge
  | BorderInset
  | BorderOutset
  | BorderDashedLong
  | BorderTriple
  | BorderSlash
  | BorderWave
  | BorderDoubleWave
  | BorderDashDot
  | BorderDashDotDot
  deriving DecidableEq

/-- KoBorder::Side (KoBorder.h lines 83-90). -/
inductive BorderSide
  | Top
  | Left
  | Bottom
  | Right
  | TopLeftToBottomRight
  | BottomLeftToTopRight
  deriving DecidableEq

/-- KoBorder::BorderData (KoBorder.h lines 93-103), the pens reduced to their
ODF-persisted attributes: outer width and color, inner width, spacing. -/
structure BorderData where
  style : BorderStyle
  spacing : ℚ
  innerWidth : ℚ
  width : ℚ
  color : ℕ
  deriving DecidableEq

/-- Modelled from the spec: KoBorder as a plain attributed-data holder, one
optional border per side (KoBorder.cpp is not among the provided sources). -/
structure KoBorder where
  top : Option BorderData
  left : Option BorderData
  bottom : Option BorderData
  right : Option BorderData
  tlbr : Option BorderData
  bltr : Option BorderData
  deriving DecidableEq

/-- Modelled from the spec: KoBorder::odfBorderStyleString, the ODF name of a
border style. -/
def odfBorderStyleString (st : BorderStyle) : String :=
  match st with
  | .BorderNone => "none"
  | .BorderDotted => "dotted"
  | .BorderDashed => "dashed"
  | .BorderSolid => "solid"
  | .BorderDouble => "double"
  | .BorderGroove => "groove"
  | .BorderRidge => "ridge"
  | .BorderInset => "inset"
  | .BorderOutset => "outset"
  | .BorderDashedLong => "dash-largegap"
  | .BorderTriple => "triple"
  | .BorderSlash => "slash"
  | .BorderWave => "wave"
  | .BorderDoubleWave => "double-wave"
  | .BorderDashDot => "dot-dash"
  | .BorderDashDotDot => "dot-dot-dash"

/-- Modelled from the spec: KoBorder::odfBorderStyle, parsing an ODF border
style name (unknown names fall back to a solid border). -/
def odfBorderStyle (str : String) : BorderStyle :=
  if str = "none" then .BorderNone
  else if str = "dotted" then .BorderDotted
  else if str = "dashed" then .BorderDashed
  else if str = "solid" then .BorderSolid
  else if str = "double" then .BorderDouble
  else if str = "groove" then .BorderGroove
  else if str = "ridge" then .BorderRidge
  else if str = "inset" then .BorderInset
  else if str = "outset" then .BorderOutset
  else if str = "dash-largegap" then .BorderDashedLong
  else if str = "triple" then .BorderTriple
  else if str = "slash" then .BorderSlash
  else if str = "wave" then .BorderWave
  else if str = "double-wave" then .BorderDoubleWave
  else if str = "dot-dash" then .BorderDashDot
  else if str = "dot-dot-dash" then .BorderDashDotDot
  else .BorderSolid

/-- Modelled from the spec: the serialized value of one side's border
attributes as written into an ODF style element. -/
structure BorderAttr where
  width : ℚ
  style : String
  color : ℕ
  innerWidth : ℚ
  spacing : ℚ
  deriving DecidableEq

/-- The ODF attribute name carrying each side's border. -/
def borderSideKey (s : BorderSide) : String :=
  match s with
  | .Top => "fo:border-top"
  | .Left => "fo:border-left"
  | .Bottom => "fo:border-bottom"
  | .Right => "fo:border-right"
  | .TopLeftToBottomRight => "style:diagonal-tl-br"
  | .BottomLeftToTopRight => "style:diagonal-bl-tr"

/-- Modelled from the spec: a style element viewed as its border-relevant
attribute list. -/
abbrev StyleElement := List (String × BorderAttr)

/-- The attribute entries saved for one side. -/
def saveOdfSide (d : Option BorderData) (key : String) : StyleElement :=
  match d with
  | none => []
  | some bd => [(key, ⟨bd.width, odfBorderStyleString bd.style, bd.color,
      bd.innerWidth, bd.spacing⟩)]

/-- Modelled from the spec: KoBorder::saveOdf, writing one attribute per set
side into the style element. -/
def saveOdf (b : KoBorder) : StyleElement :=
  saveOdfSide b.top (borderSideKey .Top) ++
  saveOdfSide b.left (borderSideKey .Left) ++
  saveOdfSide b.bottom (borderSideKey .Bottom) ++
  saveOdfSide b.right (borderSideKey .Right) ++
  saveOdfSide b.tlbr (borderSideKey .TopLeftToBottomRight) ++
  saveOdfSide b.bltr (borderSideKey .BottomLeftToTopRight)

/-- Parsing one side's attribute value back into border data. -/
def parseAttr (a : BorderAttr) : BorderData :=
  ⟨odfBorderStyle a.style, a.spacing, a.innerWidth, a.width, a.color⟩

/-- Loading one side from a style element. -/
def loadSide (el : StyleElement) (key : String) : Option BorderData :=
  (el.lookup key).map parseAttr

/-- Modelled from the spec: KoBorder::loadOdf, reading the border attributes
of the style element; the flag is true exactly when some border attribute was
found. -/
def loadOdf (el : StyleElement) : Bool × KoBorder :=
  ((el.lookup (borderSideKey .Top)).isSome ||
   (el.lookup (borderSideKey .Left)).isSome ||
   (el.lookup (borderSideKey .Bottom)).isSome ||
   (el.lookup (borderSideKey .Right)).isSome ||
   (el.lookup (borderSideKey .TopLeftToBottomRight)).isSome ||
   (el.lookup (borderSideKey .BottomLeftToTopRight)).isSome,
   ⟨loadSide el (borderSideKey .Top), loadSide el (borderSideKey .Left),
    loadSide el (borderSideKey .Bottom), loadSide el (borderSideKey .Right),
    loadSide el (borderSideKey .TopLeftToBottomRight),
    loadSide el (borderSideKey .BottomLeftToTopRight)⟩)

/-- KoBorder::hasBorder: some side carries border data. -/
def hasBorder (b : KoBorder) : Bool :=
  b.top.isSome || b.left.isSome || b.bottom.isSome || b.right.isSome ||
  b.tlbr.isSome || b.bltr.isSome

lemma HSVToRGB_grey (h s v : ℚ) (hs : s = 0 ∨ h = UNDEFINED_HUE) :
    HSVToRGB h s v = ⟨v, v, v⟩ := by
  simp only [HSVToRGB, if_pos hs]

lemma HSVToRGB_sector0 (h s v : ℚ) (hs : s ≠ 0) (hh : h ≠ UNDEFINED_HUE) (h360 : h ≠ 360)
    (hk : ⌊h / 60⌋ = 0) :
    HSVToRGB h s v = ⟨v, v * (1 - s * (1 - h / 60)), v * (1 - s)⟩ := by
  simp only [HSVToRGB, if_neg (not_or.mpr ⟨hs, hh⟩), if_neg h360, hk]
  norm_num

lemma HSVToRGB_sector1 (h s v : ℚ) (hs : s ≠ 0) (hh : h ≠ UNDEFINED_HUE) (h360 : h ≠ 360)
    (hk : ⌊h / 60⌋ = 1) :
    HSVToRGB h s v = ⟨v * (1 - s * (h / 60 - 1)), v, v * (1 - s)⟩ := by
  simp only [HSVToRGB, if_neg (not_or.mpr ⟨hs, hh⟩), if_neg h360, hk]
  norm_num

lemma HSVToRGB_sector2 (h s v : ℚ) (hs : s ≠ 0) (hh : h ≠ UNDEFINED_HUE) (h360 : h ≠ 360)
    (hk : ⌊h / 60⌋ = 2) :
    HSVToRGB h s v = ⟨v * (1 - s), v, v * (1 - s * (1 - (h / 60 - 2)))⟩ := by
  simp only [HSVToRGB, if_neg (not_or.mpr ⟨hs, hh⟩), if_neg h360, hk]
  norm_num

lemma HSVToRGB_sector3 (h s v : ℚ) (hs : s ≠ 0) (hh : h ≠ UNDEFINED_HUE) (h360 : h ≠ 360)
    (hk : ⌊h / 60⌋ = 3) :
    HSVToRGB h s v = ⟨v * (1 - s), v * (1 - s * (h / 60 - 3)), v⟩ := by
  simp only [HSVToRGB, if_neg (not_or.mpr ⟨hs, hh⟩), if_neg h360, hk]
  norm_num

lemma HSVToRGB_sector4 (h s v : ℚ) (hs : s ≠ 0) (hh : h ≠ UNDEFINED_HUE) (h360 : h ≠ 360)
    (hk : ⌊h / 60⌋ = 4) :
    HSVToRGB h s v = ⟨v * (1 - s * (1 - (h / 60 - 4))), v * (1 - s), v⟩ := by
  simp only [HSVToRGB, if_neg (not_or.mpr ⟨hs, hh⟩), if_neg h360, hk]
  norm_num

lemma HSVToRGB_sector5 (h s v : ℚ) (hs : s ≠ 0) (hh : h ≠ UNDEFINED_HUE) (h360 : h ≠ 360)
    (hk : ⌊h / 60⌋ = 5) :
    HSVToRGB h s v = ⟨v, v * (1 - s), v * (1 - s * (h / 60 - 5))⟩ := by
  simp only [HSVToRGB, if_neg (not_or.mpr ⟨hs, hh⟩), if_neg h360, hk]
  norm_num

/-- C1: composing `RGBToHSV` with `HSVToRGB` (the direction used by `setColor`
followed by `tellColorChanged`) is the identity on channel triples in
`[0,1]^3`. -/
theorem HSVToRGB_RGBToHSV_roundtrip (r g b : ℚ)
    (hr0 : 0 ≤ r) (hr1 : r ≤ 1) (hg0 : 0 ≤ g) (hg1 : g ≤ 1) (hb0 : 0 ≤ b) (hb1 : b ≤ 1) :
    HSVToRGB (RGBToHSV r g b).h (RGBToHSV r g b).s (RGBToHSV r g b).v = ⟨r, g, b⟩ := by
  set M := max r (max g b) with hM_def
  set m := min r (min g b) with hm_def
  have hrM' : r ≤ M := le_max_left _ _
  have hgM' : g ≤ M := le_trans (le_max_left g b) (le_max_right _ _)
  have hbM' : b ≤ M := le_trans (le_max_right g b) (le_max_right _ _)
  have hmr' : m ≤ r := min_le_left _ _
  have hmg' : m ≤ g := le_trans (min_le_right _ _) (min_le_left _ _)
  have hmb' : m ≤ b := le_trans (min_le_right _ _) (min_le_right _ _)
  have hMnn : 0 ≤ M := le_trans hr0 hrM'
  have hmnn : 0 ≤ m := le_min hr0 (le_min hg0 hb0)
  by_cases hM0 : M = 0
  · -- all channels are zero
    have hr : r = 0 := le_antisymm (hM0 ▸ hrM') hr0
    have hg : g = 0 := le_antisymm (hM0 ▸ hgM') hg0
    have hb : b = 0 := le_antisymm (hM0 ▸ hbM') hb0
    subst hr; subst hg; subst hb
    norm_num [RGBToHSV, HSVToRGB, UNDEFINED_HUE]
  · have hMpos : 0 < M := lt_of_le_of_ne hMnn (Ne.symm hM0)
    by_cases hmM : m = M
    · -- grey: all channels equal
      have hr : r = M := le_antisymm hrM' (hmM ▸ hmr')
      have hg : g = M := le_antisymm hgM' (hmM ▸ hmg')
      have hb : b = M := le_antisymm hbM' (hmM ▸ hmb')
      have hHSV : RGBToHSV r g b = ⟨UNDEFINED_HUE, 0, M⟩ := by
        simp only [RGBToHSV, ← hM_def, ← hm_def, if_neg hM0, hmM, sub_self, zero_div,
          if_pos rfl, if_true]
      rw [hHSV]
      rw [HSVToRGB_grey _ _ _ (Or.inl rfl)]
      rw [hr, hg, hb]
    · have hmMlt : m < M := lt_of_le_of_ne (le_trans hmr' hrM') hmM
      have hd : 0 < M - m := sub_pos.mpr hmMlt
      have hd0 : M - m ≠ 0 := ne_of_gt hd
      have hs : (M - m) / M ≠ 0 := ne_of_gt (div_pos hd hMpos)
      by_cases hrM : r = M
      · by_cases hbg : b ≤ g
        · -- r max, b min, hue in [0, 60]
          have hmb : m = b := by
            rw [hm_def, min_eq_right hbg, min_eq_right (hrM ▸ hbM' : b ≤ r)]
          have hh0nn : (0:ℚ) ≤ (g - b) / (M - m) * 60 :=
            mul_nonneg (div_nonneg (sub_nonneg.mpr hbg) hd.le) (by norm_num)
          have hHSV : RGBToHSV r g b = ⟨(g - b) / (M - m) * 60, (M - m) / M, M⟩ := by
            simp only [RGBToHSV, ← hM_def, ← hm_def, if_neg hM0, if_neg hs, if_pos hrM]
            rw [if_neg (not_lt.mpr hh0nn)]
          rw [hHSV]
          by_cases hgM : g = M
          · -- hue = 60 exactly, sector 1 with f = 0
            have hgb : g - b = M - m := by rw [hgM, hmb]
            have hhue : (g - b) / (M - m) * 60 = 60 := by
              rw [hgb, div_self hd0]; norm_num
            rw [hhue]
            rw [HSVToRGB_sector1 _ _ _ hs (by norm_num [UNDEFINED_HUE]) (by norm_num)
              (by norm_num)]
            simp only [RGB.mk.injEq]
            refine ⟨?_, hgM.symm, ?_⟩
            · rw [hrM]; norm_num
            · rw [← hmb]; field_simp
          · -- hue in [0, 60), sector 0
            have hgMlt : g < M := lt_of_le_of_ne hgM' hgM
            have hfrac_lt : (g - b) / (M - m) < 1 := by
              rw [div_lt_one hd]
              have : m ≤ b := hmb'
              linarith
            have hfloor : ⌊(g - b) / (M - m) * 60 / 60⌋ = 0 := by
              rw [show (g - b) / (M - m) * 60 / 60 = (g - b) / (M - m) by ring]
              exact Int.floor_eq_zero_iff.mpr
                ⟨div_nonneg (sub_nonneg.mpr hbg) hd.le, hfrac_lt⟩
            have hlt360 : (g - b) / (M - m) * 60 < 360 := by nlinarith [hfrac_lt]
            rw [HSVToRGB_sector0 _ _ _ hs
              (by rw [UNDEFINED_HUE]; intro hcon; rw [hcon] at hh0nn; norm_num at hh0nn)
              (ne_of_lt hlt360) hfloor]
            simp only [RGB.mk.injEq]
            refine ⟨hrM.symm, ?_, ?_⟩
            · rw [← hmb] at hbg ⊢
              field_simp
              ring
            · rw [← hmb]
              field_simp
        · -- r max, g min, hue in [300, 360)
          push_neg at hbg
          have hmg : m = g := by
            rw [hm_def, min_eq_left hbg.le, min_eq_right (hrM ▸ hgM' : g ≤ r)]
          have hfrac_neg : (g - b) / (M - m) < 0 :=
            div_neg_of_neg_of_pos (sub_neg.mpr hbg) hd
          have hfrac_ge : (-1 : ℚ) ≤ (g - b) / (M - m) := by
            rw [le_div_iff₀ hd]
            have : b ≤ M := hbM'
            have : m = g := hmg
            linarith
          have hneg : (g - b) / (M - m) * 60 < 0 :=
            mul_neg_of_neg_of_pos hfrac_neg (by norm_num)
          have hHSV : RGBToHSV r g b = ⟨(g - b) / (M - m) * 60 + 360, (M - m) / M, M⟩ := by
            simp only [RGBToHSV, ← hM_def, ← hm_def, if_neg hM0, if_neg hs, if_pos hrM]
            rw [if_pos hneg]
          rw [hHSV]
          have hge300 : (300 : ℚ) ≤ (g - b) / (M - m) * 60 + 360 := by nlinarith [hfrac_ge]
          have hlt360 : (g - b) / (M - m) * 60 + 360 < 360 := by linarith
          have hfloor : ⌊((g - b) / (M - m) * 60 + 360) / 60⌋ = 5 := by
            rw [show ((g - b) / (M - m) * 60 + 360) / 60 = (g - b) / (M - m) + 6 by ring]
            refine Int.floor_eq_iff.mpr ⟨?_, ?_⟩
            · push_cast; linarith
            · push_cast; linarith
          rw [HSVToRGB_sector5 _ _ _ hs
            (by rw [UNDEFINED_HUE]; exact ne_of_gt (by linarith)) (ne_of_lt hlt360) hfloor]
          simp only [RGB.mk.injEq]
          refine ⟨hrM.symm, ?_, ?_⟩
          · rw [← hmg]
            field_simp
          · rw [← hmg] at hbg ⊢
            field_simp
            ring
      · by_cases hgM : g = M
        · -- g max
          have hrMlt : r < M := lt_of_le_of_ne hrM' hrM
          have hfrac_ge : (-1 : ℚ) ≤ (b - r) / (M - m) := by
            rw [le_div_iff₀ hd]
            have : m ≤ b := hmb'
            linarith
          have hh0nn : ¬((2 + (b - r) / (M - m)) * 60 < 0) := by
            push_neg
            nlinarith [hfrac_ge]
          have hHSV : RGBToHSV r g b
              = ⟨(2 + (b - r) / (M - m)) * 60, (M - m) / M, M⟩ := by
            simp only [RGBToHSV, ← hM_def, ← hm_def, if_neg hM0, if_neg hs, if_neg hrM,
              if_pos hgM]
            rw [if_neg hh0nn]
          rw [hHSV]
          have hne1 : ((2 + (b - r) / (M - m)) * 60 : ℚ) ≠ UNDEFINED_HUE := by
            rw [UNDEFINED_HUE]; exact ne_of_gt (by nlinarith [hfrac_ge])
          have hne360 : ((2 + (b - r) / (M - m)) * 60 : ℚ) ≠ 360 := by
            have hle : (b - r) / (M - m) ≤ 1 := by
              rw [div_le_one hd]
              have : m ≤ r := hmr'
              linarith
            exact ne_of_lt (by nlinarith [hle])
          by_cases hbr : b ≤ r
          · -- b is the min
            have hmb : m = b := by
              rw [hm_def, min_eq_right (hgM ▸ hbM' : b ≤ g), min_eq_right hbr]
            have hfrac_gt : (-1 : ℚ) < (b - r) / (M - m) := by
              rw [lt_div_iff₀ hd]
              have : m = b := hmb
              linarith [hrMlt]
            by_cases hbr' : b = r
            · -- hue = 120 exactly, sector 2 with f = 0
              have hhue : (2 + (b - r) / (M - m)) * 60 = 120 := by
                rw [hbr', sub_self, zero_div]; norm_num
              rw [hhue]
              rw [HSVToRGB_sector2 _ _ _ hs (by norm_num [UNDEFINED_HUE]) (by norm_num)
                (by norm_num)]
              simp only [RGB.mk.injEq]
              refine ⟨?_, hgM.symm, ?_⟩
              · have hmm : M * (1 - (M - m) / M) = m := by field_simp
                rw [hmm, hmb, hbr']
              · have hmm : M * (1 - (M - m) / M * (1 - (120 / 60 - 2))) = m := by
                  norm_num
                  field_simp
                rw [hmm, hmb]
            · -- hue in (60, 120), sector 1
              have hbrlt : b < r := lt_of_le_of_ne hbr hbr'
              have hfrac_lt : (b - r) / (M - m) < 0 :=
                div_neg_of_neg_of_pos (sub_neg.mpr hbrlt) hd
              have hfloor : ⌊(2 + (b - r) / (M - m)) * 60 / 60⌋ = 1 := by
                rw [show (2 + (b - r) / (M - m)) * 60 / 60 = (b - r) / (M - m) + 2 by ring]
                refine Int.floor_eq_iff.mpr ⟨?_, ?_⟩
                · push_cast; linarith [hfrac_gt]
                · push_cast; linarith [hfrac_lt]
              rw [HSVToRGB_sector1 _ _ _ hs hne1 hne360 hfloor]
              simp only [RGB.mk.injEq]
              refine ⟨?_, hgM.symm, ?_⟩
              · rw [← hmb]
                field_simp
                ring
              · rw [← hmb]
                field_simp
          · -- r is the min
            push_neg at hbr
            have hmr : m = r := by
              rw [hm_def, min_eq_right (hgM ▸ hbM' : b ≤ g), min_eq_left hbr.le]
            have hfrac_pos : 0 < (b - r) / (M - m) := div_pos (sub_pos.mpr hbr) hd
            by_cases hbM : b = M
            · -- hue = 180 exactly, sector 3 with f = 0
              have hhue : (2 + (b - r) / (M - m)) * 60 = 180 := by
                rw [show b - r = M - m by rw [hbM, hmr], div_self hd0]; norm_num
              rw [hhue]
              rw [HSVToRGB_sector3 _ _ _ hs (by norm_num [UNDEFINED_HUE]) (by norm_num)
                (by norm_num)]
              simp only [RGB.mk.injEq]
              refine ⟨?_, ?_, hbM.symm⟩
              · have hmm : M * (1 - (M - m) / M) = m := by field_simp
                rw [hmm, hmr]
              · rw [hgM]; norm_num
            · -- hue in (120, 180), sector 2
              have hbMlt : b < M := lt_of_le_of_ne hbM' hbM
              have hfrac_lt1 : (b - r) / (M - m) < 1 := by
                rw [div_lt_one hd]
                have : m = r := hmr
                linarith
              have hfloor : ⌊(2 + (b - r) / (M - m)) * 60 / 60⌋ = 2 := by
                rw [show (2 + (b - r) / (M - m)) * 60 / 60 = (b - r) / (M - m) + 2 by ring]
                refine Int.floor_eq_iff.mpr ⟨?_, ?_⟩
                · push_cast; linarith [hfrac_pos]
                · push_cast; linarith [hfrac_lt1]
              rw [HSVToRGB_sector2 _ _ _ hs hne1 hne360 hfloor]
              simp only [RGB.mk.injEq]
              refine ⟨?_, hgM.symm, ?_⟩
              · rw [← hmr]
                field_simp
              · rw [← hmr]
                field_simp
                ring
        · -- b max
          have hbM : b = M := by
            rcases max_choice r (max g b) with h1 | h1
            · exact absurd (hM_def.trans h1).symm hrM
            · rcases max_choice g b with h2 | h2
              · exact absurd (hM_def.trans (h1.trans h2)).symm hgM
              · exact (hM_def.trans (h1.trans h2)).symm
          have hrMlt : r < M := lt_of_le_of_ne hrM' hrM
          have hgMlt : g < M := lt_of_le_of_ne hgM' hgM
          have hfrac_ge : (-1 : ℚ) ≤ (r - g) / (M - m) := by
            rw [le_div_iff₀ hd]
            have : m ≤ r := hmr'
            linarith [hgM']
          have hh0nn : ¬((4 + (r - g) / (M - m)) * 60 < 0) := by
            push_neg
            nlinarith [hfrac_ge]
          have hHSV : RGBToHSV r g b
              = ⟨(4 + (r - g) / (M - m)) * 60, (M - m) / M, M⟩ := by
            simp only [RGBToHSV, ← hM_def, ← hm_def, if_neg hM0, if_neg hs, if_neg hrM,
              if_neg hgM]
            rw [if_neg hh0nn]
          rw [hHSV]
          have hne1 : ((4 + (r - g) / (M - m)) * 60 : ℚ) ≠ UNDEFINED_HUE := by
            rw [UNDEFINED_HUE]; exact ne_of_gt (by nlinarith [hfrac_ge])
          have hne360 : ((4 + (r - g) / (M - m)) * 60 : ℚ) ≠ 360 := by
            have hle : (r - g) / (M - m) ≤ 1 := by
              rw [div_le_one hd]
              have : m ≤ g := hmg'
              linarith
            exact ne_of_lt (by nlinarith [hle])
          by_cases hgr : g ≤ r
          · -- g is the min, hue in [240, 300), sector 4
            have hmg : m = g := by
              rw [hm_def, min_eq_left (hbM ▸ hgM' : g ≤ b), min_eq_right hgr]
            have hfrac_nn : 0 ≤ (r - g) / (M - m) := div_nonneg (sub_nonneg.mpr hgr) hd.le
            have hfrac_lt1 : (r - g) / (M - m) < 1 := by
              rw [div_lt_one hd]
              have : m = g := hmg
              linarith [hrMlt]
            have hfloor : ⌊(4 + (r - g) / (M - m)) * 60 / 60⌋ = 4 := by
              rw [show (4 + (r - g) / (M - m)) * 60 / 60 = (r - g) / (M - m) + 4 by ring]
              refine Int.floor_eq_iff.mpr ⟨?_, ?_⟩
              · push_cast; linarith [hfrac_nn]
              · push_cast; linarith [hfrac_lt1]
            rw [HSVToRGB_sector4 _ _ _ hs hne1 hne360 hfloor]
            simp only [RGB.mk.injEq]
            refine ⟨?_, ?_, hbM.symm⟩
            · rw [← hmg]
              field_simp
              ring
            · rw [← hmg]
              field_simp
          · -- r is the min, hue in (180, 240), sector 3
            push_neg at hgr
            have hmr : m = r := by
              rw [hm_def, min_eq_left (hbM ▸ hgM' : g ≤ b), min_eq_left hgr.le]
            have hfrac_neg : (r - g) / (M - m) < 0 :=
              div_neg_of_neg_of_pos (sub_neg.mpr hgr) hd
            have hfrac_gt : (-1 : ℚ) < (r - g) / (M - m) := by
              rw [lt_div_iff₀ hd]
              have : m = r := hmr
              linarith [hgMlt]
            have hfloor : ⌊(4 + (r - g) / (M - m)) * 60 / 60⌋ = 3 := by
              rw [show (4 + (r - g) / (M - m)) * 60 / 60 = (r - g) / (M - m) + 4 by ring]
              refine Int.floor_eq_iff.mpr ⟨?_, ?_⟩
              · push_cast; linarith [hfrac_gt]
              · push_cast; linarith [hfrac_neg]
            rw [HSVToRGB_sector3 _ _ _ hs hne1 hne360 hfloor]
            simp only [RGB.mk.injEq]
            refine ⟨?_, ?_, hbM.symm⟩
            · rw [← hmr]
              field_simp
            · rw [← hmr]
              field_simp
              ring

/-- Witness for C1 at the concrete triple (0, 1, 0). -/
theorem HSVToRGB_RGBToHSV_roundtrip_witness :
    (0:ℚ) ≤ 1 ∧ HSVToRGB (RGBToHSV 0 1 0).h (RGBToHSV 0 1 0).s (RGBToHSV 0 1 0).v = ⟨0, 1, 0⟩ :=
  ⟨zero_le_one,
   HSVToRGB_RGBToHSV_roundtrip 0 1 0 le_rfl zero_le_one zero_le_one le_rfl le_rfl zero_le_one⟩

/-- C5: buffer conversion is color-space aware in both directions: a non-RGBA
painting color space is replaced by rgb8, and the chosen color space's 8-bit
integer depth selects BGR channel order for both reading (setColor) and
writing (tellColorChanged), any other depth RGB order. -/
theorem buffer_conversion_colorspace_aware (cs : KoColorSpace) (ch : Channels) (r g b : ℚ) :
    (cs.colorModelId ≠ ColorModelId.RGBA → effectiveColorSpace cs = rgb8) ∧
    ((effectiveColorSpace cs).colorDepthId = ColorDepthId.Integer8Bits →
      readRGBFromChannels (effectiveColorSpace cs) ch = ⟨ch.c2, ch.c1, ch.c0⟩ ∧
      writeRGBToChannels (effectiveColorSpace cs) r g b = ⟨b, g, r, 1⟩) ∧
    ((effectiveColorSpace cs).colorDepthId ≠ ColorDepthId.Integer8Bits →
      readRGBFromChannels (effectiveColorSpace cs) ch = ⟨ch.c0, ch.c1, ch.c2⟩ ∧
      writeRGBToChannels (effectiveColorSpace cs) r g b = ⟨r, g, b, 1⟩) := by
  refine ⟨fun hm => ?_, fun hd => ?_, fun hd => ?_⟩
  · simp [effectiveColorSpace, hm]
  · simp [readRGBFromChannels, writeRGBToChannels, hd]
  · simp [readRGBFromChannels, writeRGBToChannels, hd]

/-- Witness for C5 at a CMYKA/8-bit color space. -/
theorem buffer_conversion_colorspace_aware_witness :
    effectiveColorSpace ⟨ColorModelId.nonRGBA "CMYKA", ColorDepthId.Integer8Bits⟩ = rgb8 ∧
    readRGBFromChannels
        (effectiveColorSpace ⟨ColorModelId.nonRGBA "CMYKA", ColorDepthId.Integer8Bits⟩)
        ⟨1, 2, 3, 4⟩ = ⟨3, 2, 1⟩ :=
  ⟨(buffer_conversion_colorspace_aware _ ⟨1, 2, 3, 4⟩ 0 0 0).1 (by decide),
   ((buffer_conversion_colorspace_aware _ ⟨1, 2, 3, 4⟩ 0 0 0).2.1 (by decide)).1⟩

/-- C7: when HDR is not active the effective relative dynamic range is 1, and
setColor applies no scaling factor: each channel is clamped to [0, 1]. -/
theorem nonHDR_clamps_channels (s : WidgetState) (r g b : ℚ) (h : s.hasHDR = false) :
    effectiveRelativeDynamicRange s = 1 ∧
    processColorChannels s r g b = ⟨s, qBound 0 r 1, qBound 0 g 1, qBound 0 b 1⟩ := by
  constructor
  · simp [effectiveRelativeDynamicRange, h]
  · simp [processColorChannels, h]

/-- Witness for C7 at the constructor state. -/
theorem nonHDR_clamps_channels_witness :
    (initState false).hasHDR = false ∧
    effectiveRelativeDynamicRange (initState false) = 1 ∧
    processColorChannels (initState false) 2 (1/2) (-1) =
      ⟨initState false, qBound 0 2 1, qBound 0 (1/2) 1, qBound 0 (-1) 1⟩ :=
  ⟨rfl, (nonHDR_clamps_channels (initState false) 2 (1/2) (-1) rfl).1,
    (nonHDR_clamps_channels (initState false) 2 (1/2) (-1) rfl).2⟩

/-- C10: setColor returns immediately, leaving the state unchanged, whenever
updateAllowed is false; in particular a setColor arriving while
tellColorChanged is emitting colorChanged has no effect. -/
theorem setColor_reentrancy_guard (s : WidgetState) (cs cs' : KoColorSpace)
    (ch ch' : Channels) (h : s.updateAllowed = false) :
    setColor s cs ch = s ∧
    setColor (midEmissionState s) cs' ch' = midEmissionState s := by
  constructor
  · simp [setColor, h]
  · simp [setColor, midEmissionState]

/-- Witness for C10 at a mid-emission constructor state. -/
theorem setColor_reentrancy_guard_witness :
    (midEmissionState (initState false)).updateAllowed = false ∧
    setColor (midEmissionState (initState false)) rgb8 ⟨0, 0, 0, 1⟩ =
      midEmissionState (initState false) :=
  ⟨rfl, (setColor_reentrancy_guard (midEmissionState (initState false)) rgb8 rgb8
      ⟨0, 0, 0, 1⟩ ⟨0, 0, 0, 1⟩ rfl).1⟩

/-- C2: in setColor with HDR active, when some channel exceeds the effective
range coefficient the coefficient is raised to 1.10 times the maximum channel,
the dynamic range is updated to round(80 * coefficient), every channel is
divided by the raised coefficient, and each result is at most 1. -/
theorem setColor_hdr_range_expansion (s : WidgetState) (r g b : ℚ)
    (hhdr : s.hasHDR = true)
    (hpos : 0 < effectiveRelativeDynamicRange s)
    (hexceed : effectiveRelativeDynamicRange s < r ∨ effectiveRelativeDynamicRange s < g ∨
      effectiveRelativeDynamicRange s < b) :
    processColorChannels s r g b =
      ⟨slotUpdateDynamicRange s (qRound (80 * (max r (max g b) * (11/10)))),
       r / (max r (max g b) * (11/10)),
       g / (max r (max g b) * (11/10)),
       b / (max r (max g b) * (11/10))⟩ ∧
    r / (max r (max g b) * (11/10)) ≤ 1 ∧
    g / (max r (max g b) * (11/10)) ≤ 1 ∧
    b / (max r (max g b) * (11/10)) ≤ 1 := by
  have hrMx : r ≤ max r (max g b) := le_max_left _ _
  have hgMx : g ≤ max r (max g b) := le_trans (le_max_left g b) (le_max_right _ _)
  have hbMx : b ≤ max r (max g b) := le_trans (le_max_right g b) (le_max_right _ _)
  have hMxpos : 0 < max r (max g b) := by
    rcases hexceed with h | h | h
    · exact lt_of_lt_of_le (lt_trans hpos h) hrMx
    · exact lt_of_lt_of_le (lt_trans hpos h) hgMx
    · exact lt_of_lt_of_le (lt_trans hpos h) hbMx
  have hcoeff : 0 < max r (max g b) * (11/10) := by positivity
  have hbig : max r (max g b) ≤ max r (max g b) * (11/10) := by nlinarith
  refine ⟨?_, ?_, ?_, ?_⟩
  · simp only [processColorChannels, hhdr, if_true, if_pos hexceed]
  · rw [div_le_one hcoeff]; exact le_trans hrMx hbig
  · rw [div_le_one hcoeff]; exact le_trans hgMx hbig
  · rw [div_le_one hcoeff]; exact le_trans hbMx hbig

/-- Witness for C2 in an HDR state with range 1 and red channel 2. -/
theorem setColor_hdr_range_expansion_witness :
    hdrTestState.hasHDR = true ∧
    (0:ℚ) < effectiveRelativeDynamicRange hdrTestState ∧
    effectiveRelativeDynamicRange hdrTestState < 2 ∧
    (2:ℚ) / (max 2 (max 0 0) * (11/10)) ≤ 1 :=
  ⟨rfl, by decide, by decide,
   (setColor_hdr_range_expansion hdrTestState 2 0 0 rfl (by decide)
     (Or.inl (by decide))).2.1⟩

/-- C4: when the new relative range maxLuminance/80 is not fuzzily equal to the
stored one, slotUpdateDynamicRange converts the stored HSV color to RGB, scales
each channel by newRange/oldRange clamping to [0,1], converts back to HSV,
stores that as the new color and sets the relative dynamic range to newRange. -/
theorem slotUpdateDynamicRange_remaps_color (s : WidgetState) (maxLuminance : ℤ)
    (hfuzzy : qFuzzyCompare s.currentRelativeDynamicRange ((maxLuminance : ℚ) / 80) = false) :
    slotUpdateDynamicRange s maxLuminance =
      (let newRange : ℚ := (maxLuminance : ℚ) / 80
       let rgb := HSVToRGB (s.hue * 360) s.saturation s.value
       let tc := newRange / s.currentRelativeDynamicRange
       let hsv := RGBToHSV (qBound 0 (rgb.r * tc) 1) (qBound 0 (rgb.g * tc) 1)
           (qBound 0 (rgb.b * tc) 1)
       { s with currentRelativeDynamicRange := newRange,
                hue := qBound 0 (hsv.h / 360) 1,
                value := qBound 0 hsv.v 1,
                saturation := qBound 0 hsv.s 1 }) := by
  simp only [slotUpdateDynamicRange, hfuzzy, Bool.false_eq_true, if_false, setHSV]

/-- Witness for C4 at the constructor state and max luminance 160 cd per m2. -/
theorem slotUpdateDynamicRange_remaps_color_witness :
    qFuzzyCompare (initState false).currentRelativeDynamicRange (((160:ℤ) : ℚ) / 80) = false ∧
    slotUpdateDynamicRange (initState false) 160 =
      (let newRange : ℚ := ((160:ℤ) : ℚ) / 80
       let rgb := HSVToRGB ((initState false).hue * 360) (initState false).saturation
           (initState false).value
       let tc := newRange / (initState false).currentRelativeDynamicRange
       let hsv := RGBToHSV (qBound 0 (rgb.r * tc) 1) (qBound 0 (rgb.g * tc) 1)
           (qBound 0 (rgb.b * tc) 1)
       { (initState false) with
           currentRelativeDynamicRange := newRange,
           hue := qBound 0 (hsv.h / 360) 1,
           value := qBound 0 hsv.v 1,
           saturation := qBound 0 hsv.s 1 }) := by
  have hfz : qFuzzyCompare (initState false).currentRelativeDynamicRange
      (((160:ℤ) : ℚ) / 80) = false := by
    norm_num [qFuzzyCompare, initState, abs, min_def]
  exact ⟨hfz, slotUpdateDynamicRange_remaps_color (initState false) 160 hfz⟩

lemma qBound01_nonneg (x : ℚ) : 0 ≤ qBound 0 x 1 := le_max_left _ _

lemma qBound01_le_one (x : ℚ) : qBound 0 x 1 ≤ 1 := max_le zero_le_one (min_le_left _ _)

lemma hsvBounded_setHSV (s : WidgetState) (h sat v : ℚ) (n : Bool) :
    HSVBounded (setHSV s h sat v n) := by
  unfold setHSV HSVBounded tellColorChangedState
  split <;>
    exact ⟨qBound01_nonneg _, qBound01_le_one _, qBound01_nonneg _, qBound01_le_one _,
      qBound01_nonneg _, qBound01_le_one _⟩

lemma hsvBounded_setHue (s : WidgetState) (h : ℚ) (hs : HSVBounded s) :
    HSVBounded (setHue s h) :=
  ⟨qBound01_nonneg _, qBound01_le_one _, hs.2.2.1, hs.2.2.2.1, hs.2.2.2.2.1, hs.2.2.2.2.2⟩

lemma hsvBounded_slotUpdateDynamicRange (s : WidgetState) (lum : ℤ) (hs : HSVBounded s) :
    HSVBounded (slotUpdateDynamicRange s lum) := by
  simp only [slotUpdateDynamicRange]
  split
  · exact hs
  · exact hsvBounded_setHSV _ _ _ _ _

lemma hsvBounded_process (s : WidgetState) (r g b : ℚ) (hs : HSVBounded s) :
    HSVBounded (processColorChannels s r g b).state := by
  simp only [processColorChannels]
  split
  · split
    · exact hsvBounded_slotUpdateDynamicRange _ _ hs
    · exact hs
  · exact hs

lemma hsvBounded_setColorBody (s : WidgetState) (cs : KoColorSpace) (ch : Channels)
    (hs : HSVBounded s) : HSVBounded (setColorBody s cs ch) := by
  unfold setColorBody
  split
  · exact hs
  · exact hsvBounded_setHSV _ _ _ _ _

lemma hsvBounded_setColor (s : WidgetState) (cs : KoColorSpace) (ch : Channels)
    (hs : HSVBounded s) : HSVBounded (setColor s cs ch) := by
  unfold setColor
  split
  · exact hs
  · refine hsvBounded_setColorBody _ _ _ ?_
    split
    · exact hs
    · exact hs

lemma hsvBounded_hueSlider (s : WidgetState) (pos : PointF) (hs : HSVBounded s) :
    HSVBounded (slotHueSliderChanged s pos) := by
  unfold slotHueSliderChanged
  split
  · exact hsvBounded_setHue _ _ hs
  · exact hs

lemma hsvBounded_valueSlider (s : WidgetState) (pos : PointF) (hs : HSVBounded s) :
    HSVBounded (slotValueSliderChanged s pos) := by
  simp only [slotValueSliderChanged]
  split
  · exact hsvBounded_setHSV _ _ _ _ _
  · exact hs

/-- C8: the stored hue, saturation and value of the widget lie in [0,1] in
every reachable state: they start there and every write clamps with qBound. -/
theorem widget_hsv_in_unit_interval (s : WidgetState) (h : ReachableState s) :
    HSVBounded s := by
  obtain ⟨hw, hsteps⟩ := h
  induction hsteps with
  | refl => exact ⟨le_rfl, zero_le_one, le_rfl, zero_le_one, le_rfl, zero_le_one⟩
  | tail hab hbc ih =>
      cases hbc with
      | stepSetColor cs ch => exact hsvBounded_setColor _ _ _ ih
      | stepHueSlider pos => exact hsvBounded_hueSlider _ _ ih
      | stepValueSlider pos => exact hsvBounded_valueSlider _ _ ih
      | stepDynamicRange lum => exact hsvBounded_slotUpdateDynamicRange _ _ ih
      | stepDisplayConfig p => exact ih
      | stepTellColor => exact ih
      | stepMidEmission => exact ih

/-- Witness for C8 at the constructor state. -/
theorem widget_hsv_in_unit_interval_witness :
    ReachableState (initState false) ∧ HSVBounded (initState false) :=
  ⟨⟨false, Relation.ReflTransGen.refl⟩,
   widget_hsv_in_unit_interval (initState false) ⟨false, Relation.ReflTransGen.refl⟩⟩

lemma hdrImplies_displayConfig (s : WidgetState) (p : Option KoColorSpace) :
    HDRImplies (slotDisplayConfigurationChanged s p) := by
  intro h
  simp only [slotDisplayConfigurationChanged] at h ⊢
  exact (Bool.and_eq_true _ _).mp h |>.1

lemma hdrImplies_setHSV (s : WidgetState) (h sat v : ℚ) (n : Bool) (hs : HDRImplies s) :
    HDRImplies (setHSV s h sat v n) := by
  unfold setHSV tellColorChangedState
  split
  · exact hs
  · exact hs

lemma hdrImplies_slotUpdateDynamicRange (s : WidgetState) (lum : ℤ) (hs : HDRImplies s) :
    HDRImplies (slotUpdateDynamicRange s lum) := by
  simp only [slotUpdateDynamicRange]
  split
  · exact hs
  · exact hdrImplies_setHSV _ _ _ _ _ hs

lemma hdrImplies_process (s : WidgetState) (r g b : ℚ) (hs : HDRImplies s) :
    HDRImplies (processColorChannels s r g b).state := by
  simp only [processColorChannels]
  split
  · split
    · exact hdrImplies_slotUpdateDynamicRange _ _ hs
    · exact hs
  · exact hs

lemma hdrImplies_setColorBody (s : WidgetState) (cs : KoColorSpace) (ch : Channels)
    (hs : HDRImplies s) : HDRImplies (setColorBody s cs ch) := by
  unfold setColorBody
  split
  · exact hs
  · exact hdrImplies_setHSV _ _ _ _ _ (hdrImplies_process _ _ _ _ hs)

lemma hdrImplies_setColor (s : WidgetState) (cs : KoColorSpace) (ch : Channels)
    (hs : HDRImplies s) : HDRImplies (setColor s cs ch) := by
  unfold setColor
  split
  · exact hs
  · refine hdrImplies_setColorBody _ _ _ ?_
    split
    · exact hdrImplies_displayConfig _ _
    · exact hs

lemma hdrImplies_setHue (s : WidgetState) (h : ℚ) (hs : HDRImplies s) :
    HDRImplies (setHue s h) := hs

lemma hdrImplies_hueSlider (s : WidgetState) (pos : PointF) (hs : HDRImplies s) :
    HDRImplies (slotHueSliderChanged s pos) := by
  unfold slotHueSliderChanged
  split
  · exact hdrImplies_setHue _ _ hs
  · exact hs

lemma hdrImplies_valueSlider (s : WidgetState) (pos : PointF) (hs : HDRImplies s) :
    HDRImplies (slotValueSliderChanged s pos) := by
  simp only [slotValueSliderChanged]
  split
  · exact hdrImplies_setHSV _ _ _ _ _ hs
  · exact hs

/-- C9: hasHDR implies hasHardwareHDR in every reachable state: hasHDR starts
false and is recomputed only by slotDisplayConfigurationChanged, which
conjoins it with hasHardwareHDR. -/
theorem hasHDR_implies_hasHardwareHDR (s : WidgetState) (h : ReachableState s) :
    HDRImplies s := by
  obtain ⟨hw, hsteps⟩ := h
  induction hsteps with
  | refl => intro hfalse; exact absurd hfalse (by simp [initState])
  | tail hab hbc ih =>
      cases hbc with
      | stepSetColor cs ch => exact hdrImplies_setColor _ _ _ ih
      | stepHueSlider pos => exact hdrImplies_hueSlider _ _ ih
      | stepValueSlider pos => exact hdrImplies_valueSlider _ _ ih
      | stepDynamicRange lum => exact hdrImplies_slotUpdateDynamicRange _ _ ih
      | stepDisplayConfig p => exact hdrImplies_displayConfig _ _
      | stepTellColor => exact ih
      | stepMidEmission => exact ih

/-- Witness for C9 at a reachable HDR-off state with hardware HDR present. -/
theorem hasHDR_implies_hasHardwareHDR_witness :
    ReachableState (initState true) ∧ HDRImplies (initState true) :=
  ⟨⟨true, Relation.ReflTransGen.refl⟩,
   hasHDR_implies_hasHardwareHDR (initState true) ⟨true, Relation.ReflTransGen.refl⟩⟩


lemma length_flatMap_range_map {α : Type} (w h : ℕ) (f : ℕ → ℕ → α) :
    ((List.range h).flatMap fun j => (List.range w).map fun i => f i j).length = h * w := by
  induction h with
  | zero => simp
  | succ k ih =>
      rw [List.range_succ, List.flatMap_append _ _ _]
      simp [ih, Nat.succ_mul]

lemma getElem?_flatMap_range_map {α : Type} (w h x y : ℕ) (f : ℕ → ℕ → α)
    (hx : x < w) (hy : y < h) :
    ((List.range h).flatMap fun j => (List.range w).map fun i => f i j)[y * w + x]? =
      some (f x y) := by
  induction h with
  | zero => exact absurd hy (Nat.not_lt_zero y)
  | succ k ih =>
      rw [List.range_succ, List.flatMap_append _ _ _]
      rcases Nat.lt_succ_iff_lt_or_eq.mp hy with h' | h'
      · rw [List.getElem?_append_left]
        · exact ih h'
        · rw [length_flatMap_range_map]
          exact lt_of_lt_of_le (Nat.add_lt_add_left hx _)
            (le_trans (le_of_eq (Nat.succ_mul y w).symm) (Nat.mul_le_mul_right w h'))
      · subst h'
        rw [List.getElem?_append_right]
        · rw [length_flatMap_range_map]
          have hxx : y * w + x - y * w = x := by omega
          rw [hxx]
          simp [List.getElem?_range hx]
        · rw [length_flatMap_range_map]
          exact Nat.le_add_right _ _

/-- C3: under skipped display conversion the palette images are a direct
per-pixel transform: at (x, y) the hue palette holds HSVToRGB(360 x / width,
1, 1) and the SV palette holds HSVToRGB(hue 360, x / width, 1 - y / height),
channels scaled by the dynamic-range coefficient, alpha 1. -/
theorem uploadPaletteData_pixel_formula (hue rangeCoeff : ℚ) (width height x y : ℕ)
    (hx : x < width) (hy : y < height) :
    (uploadPaletteDataSkip fillHPolicy hue rangeCoeff width height)[y * width + x]? =
      some ⟨(HSVToRGB (360 * x / width) 1 1).r * rangeCoeff,
            (HSVToRGB (360 * x / width) 1 1).g * rangeCoeff,
            (HSVToRGB (360 * x / width) 1 1).b * rangeCoeff, 1⟩ ∧
    (uploadPaletteDataSkip fillSVPolicy hue rangeCoeff width height)[y * width + x]? =
      some ⟨(HSVToRGB (hue * 360) (x / width) (1 - y / height)).r * rangeCoeff,
            (HSVToRGB (hue * 360) (x / width) (1 - y / height)).g * rangeCoeff,
            (HSVToRGB (hue * 360) (x / width) (1 - y / height)).b * rangeCoeff, 1⟩ := by
  constructor
  · simp only [uploadPaletteDataSkip]
    rw [getElem?_flatMap_range_map width height x y _ hx hy]
    simp only [fillHPolicy]
    rw [show (1 / (width : ℚ)) * x * 360 = 360 * x / width by ring]
  · simp only [uploadPaletteDataSkip]
    rw [getElem?_flatMap_range_map width height x y _ hx hy]
    simp only [fillSVPolicy]
    rw [show (1 / (width : ℚ)) * x = x / width by ring,
      show 1 - (1 / (height : ℚ)) * y = 1 - y / height by ring]

/-- Witness for C3 at pixel (1, 1) of a 2 by 2 palette. -/
theorem uploadPaletteData_pixel_formula_witness :
    (1 < 2) ∧
    (uploadPaletteDataSkip fillHPolicy (1/2) 1 2 2)[1 * 2 + 1]? =
      some ⟨(HSVToRGB (360 * 1 / 2) 1 1).r * 1, (HSVToRGB (360 * 1 / 2) 1 1).g * 1,
            (HSVToRGB (360 * 1 / 2) 1 1).b * 1, 1⟩ :=
  ⟨by decide, (uploadPaletteData_pixel_formula (1/2) 1 2 2 1 1 (by decide) (by decide)).1⟩

lemma odfBorderStyle_roundtrip (st : BorderStyle) :
    odfBorderStyle (odfBorderStyleString st) = st := by
  cases st <;> rfl

lemma parseAttr_serialize (bd : BorderData) :
    parseAttr ⟨bd.width, odfBorderStyleString bd.style, bd.color, bd.innerWidth,
      bd.spacing⟩ = bd := by
  cases bd
  simp [parseAttr, odfBorderStyle_roundtrip]

/-- C6: saving a KoBorder with at least one side set into an ODF style and
loading it back yields an equal border with the found flag true; and loadOdf
reports true exactly when some border attribute is present in the element. -/
theorem KoBorder_odf_roundtrip :
    (∀ b : KoBorder, hasBorder b = true → loadOdf (saveOdf b) = (true, b)) ∧
    (∀ el : StyleElement, (loadOdf el).1 = true ↔
      ∃ s : BorderSide, (el.lookup (borderSideKey s)).isSome = true) := by
  constructor
  · rintro ⟨t, l, bo, ri, d1, d2⟩ hb
    cases t <;> cases l <;> cases bo <;> cases ri <;> cases d1 <;> cases d2 <;>
      simp_all [saveOdf, saveOdfSide, loadOdf, loadSide, borderSideKey, hasBorder,
        parseAttr_serialize, List.lookup]
  · intro el
    simp only [loadOdf, Bool.or_eq_true]
    constructor
    · rintro (((((h | h) | h) | h) | h) | h)
      · exact ⟨.Top, h⟩
      · exact ⟨.Left, h⟩
      · exact ⟨.Bottom, h⟩
      · exact ⟨.Right, h⟩
      · exact ⟨.TopLeftToBottomRight, h⟩
      · exact ⟨.BottomLeftToTopRight, h⟩
    · rintro ⟨s, hs⟩
      cases s
      · exact Or.inl (Or.inl (Or.inl (Or.inl (Or.inl hs))))
      · exact Or.inl (Or.inl (Or.inl (Or.inl (Or.inr hs))))
      · exact Or.inl (Or.inl (Or.inl (Or.inr hs)))
      · exact Or.inl (Or.inl (Or.inr hs))
      · exact Or.inl (Or.inr hs)
      · exact Or.inr hs

/-- Witness for C6 at a border with a single solid top edge. -/
theorem KoBorder_odf_roundtrip_witness :
    hasBorder ⟨some ⟨BorderStyle.BorderSolid, 0, 0, 1, 255⟩, none, none, none, none, none⟩
      = true ∧
    loadOdf (saveOdf ⟨some ⟨BorderStyle.BorderSolid, 0, 0, 1, 255⟩, none, none, none,
      none, none⟩) =
      (true, ⟨some ⟨BorderStyle.BorderSolid, 0, 0, 1, 255⟩, none, none, none, none, none⟩) :=
  ⟨rfl, KoBorder_odf_roundtrip.1
    ⟨some ⟨BorderStyle.BorderSolid, 0, 0, 1, 255⟩, none, none, none, none, none⟩ rfl⟩
